import Mathlib

/-
Verification development for `src/task8/app.js`: a browser page that
periodically fetches a Bitcoin price and a USD/RUB exchange rate, computes a
rouble total and its change since the previous cycle, and renders a table.

Shallow embedding notes:
  * JavaScript numbers are modelled exactly as extended rationals (`JsNum`:
    NaN, +Infinity, -Infinity, or a finite rational); float rounding is not
    modelled, which is the standard exact-arithmetic reading of the spec.
  * JavaScript values reachable through `JSON.parse` and the fetch bodies are
    modelled by `JsVal` (undefined, null, booleans, numbers, strings, objects
    as association lists, arrays).
  * The `localStorage` cell at the single key `usdRubRateCache` is modelled by
    `Cell`: absent, the empty string (falsy in the source's `if (cachedData)`
    test), a non-empty string that `JSON.parse` rejects, or a string that
    parses to a `JsVal`.  `JSON.stringify` followed by `JSON.parse` is the
    `jsonRound` normalisation.
  * Network effects are modelled by passing each fetch's outcome
    (`FetchResult`) in an environment record; `async` control flow becomes
    the `Except JsErr` monad, an exception escaping the function being a
    rejected promise.
-/

set_option autoImplicit false

namespace Task8

/-- A JavaScript number: NaN, the two infinities, or a finite value modelled
as an exact rational. -/
inductive JsNum where
  | nan
  | inf
  | ninf
  | fin (q : ℚ)
  deriving DecidableEq, Repr

/-- JavaScript subtraction `a - b` on numbers. -/
def JsNum.sub : JsNum → JsNum → JsNum
  | .nan, _ => .nan
  | _, .nan => .nan
  | .inf, .inf => .nan
  | .inf, .ninf => .inf
  | .inf, .fin _ => .inf
  | .ninf, .ninf => .nan
  | .ninf, .inf => .ninf
  | .ninf, .fin _ => .ninf
  | .fin _, .inf => .ninf
  | .fin _, .ninf => .inf
  | .fin a, .fin b => .fin (a - b)

/-- JavaScript multiplication `a * b` on numbers. -/
def JsNum.mul : JsNum → JsNum → JsNum
  | .nan, _ => .nan
  | _, .nan => .nan
  | .fin a, .fin b => .fin (a * b)
  | .inf, .inf => .inf
  | .inf, .ninf => .ninf
  | .ninf, .inf => .ninf
  | .ninf, .ninf => .inf
  | .inf, .fin b => if 0 < b then .inf else if b < 0 then .ninf else .nan
  | .fin a, .inf => if 0 < a then .inf else if a < 0 then .ninf else .nan
  | .ninf, .fin b => if 0 < b then .ninf else if b < 0 then .inf else .nan
  | .fin a, .ninf => if 0 < a then .ninf else if a < 0 then .inf else .nan

/-- JavaScript strict comparison `a < b` on numbers (false whenever either
side is NaN). -/
def JsNum.ltB : JsNum → JsNum → Bool
  | .nan, _ => false
  | _, .nan => false
  | .fin a, .fin b => decide (a < b)
  | .fin _, .inf => true
  | .fin _, .ninf => false
  | .inf, _ => false
  | .ninf, .ninf => false
  | .ninf, _ => true

/-- A JavaScript value as reachable from JSON data plus `undefined`. -/
inductive JsVal where
  | jsUndefined
  | jsNull
  | jsBool (b : Bool)
  | jsNum (n : JsNum)
  | jsStr (s : String)
  | jsObj (fields : List (String × JsVal))
  | jsArr (elems : List JsVal)
  deriving Repr

/-- Numeric value of a decimal digit character. -/
def digitVal (c : Char) : ℕ := c.toNat - 48

/-- Split off a leading run of decimal digits. -/
def takeDigits : List Char → (List ℕ × List Char)
  | [] => ([], [])
  | c :: rest =>
    if c.isDigit then
      let (ds, r) := takeDigits rest
      (digitVal c :: ds, r)
    else
      ([], c :: rest)

/-- Value of a digit list read most-significant first. -/
def digitsToNat (ds : List ℕ) : ℕ := ds.foldl (fun a d => a * 10 + d) 0

/-- Value of one character in the given radix, if it is a digit of that
radix (hex accepts both cases). -/
def radixDigitVal (radix : ℕ) (c : Char) : Option ℕ :=
  let v : ℕ :=
    if c.isDigit then digitVal c
    else if 'a' ≤ c ∧ c ≤ 'f' then c.toNat - 87
    else if 'A' ≤ c ∧ c ≤ 'F' then c.toNat - 55
    else 99
  if v < radix then some v else none

/-- Read a whole character list as digits in the given radix; `none` when
empty or when any character is out of range. -/
def radixDigits (radix : ℕ) : List Char → Option ℕ
  | [] => none
  | [c] => radixDigitVal radix c
  | c :: rest => do
    let v ← radixDigitVal radix c
    let r ← radixDigits radix rest
    pure (v * radix ^ rest.length + r)

/-- Parse an unsigned decimal literal `digits [. digits] [eE [sign] digits]`
covering the whole list, as JavaScript's `ToNumber` does on strings. -/
def parseUnsignedDec (cs : List Char) : Option ℚ :=
  let (ip, r1) := takeDigits cs
  let (fp, r2) :=
    match r1 with
    | '.' :: rest => takeDigits rest
    | _ => ([], r1)
  if ip = [] ∧ fp = [] then none
  else
    let mant : ℚ := (digitsToNat ip : ℚ) + (digitsToNat fp : ℚ) / ((10 : ℚ) ^ fp.length)
    match r2 with
    | [] => some mant
    | e :: rest =>
      if e = 'e' ∨ e = 'E' then
        let (esign, rest2) : ℤ × List Char :=
          match rest with
          | '+' :: r => (1, r)
          | '-' :: r => (-1, r)
          | r => (1, r)
        let (eds, rest3) := takeDigits rest2
        if eds = [] ∨ rest3 ≠ [] then none
        else some (mant * (10 : ℚ) ^ (esign * (digitsToNat eds : ℤ)))
      else none

/-- JavaScript `ToNumber` on a string: trimmed empty means 0, radix-prefixed
integers, otherwise an optionally signed decimal literal or `Infinity`;
anything else is NaN. -/
def strToNum (s : String) : JsNum :=
  let t := s.trim
  if t = "" then .fin 0
  else
    let cs := t.data
    let radixCase : Option JsNum :=
      match cs with
      | '0' :: 'x' :: rest => some ((radixDigits 16 rest).elim .nan (fun n => .fin n))
      | '0' :: 'X' :: rest => some ((radixDigits 16 rest).elim .nan (fun n => .fin n))
      | '0' :: 'o' :: rest => some ((radixDigits 8 rest).elim .nan (fun n => .fin n))
      | '0' :: 'O' :: rest => some ((radixDigits 8 rest).elim .nan (fun n => .fin n))
      | '0' :: 'b' :: rest => some ((radixDigits 2 rest).elim .nan (fun n => .fin n))
      | '0' :: 'B' :: rest => some ((radixDigits 2 rest).elim .nan (fun n => .fin n))
      | _ => none
    match radixCase with
    | some n => n
    | none =>
      let (neg, body) : Bool × List Char :=
        match cs with
        | '+' :: r => (false, r)
        | '-' :: r => (true, r)
        | r => (false, r)
      if body = "Infinity".data then (if neg then .ninf else .inf)
      else
        match parseUnsignedDec body with
        | some q => .fin (if neg then -q else q)
        | none => .nan

/-- `ToNumber` of the single element of a one-element array, i.e. of its
`toString` image (so booleans and multi-element arrays give NaN). -/
def singletonNum : JsVal → JsNum
  | .jsUndefined => .fin 0
  | .jsNull => .fin 0
  | .jsNum n => n
  | .jsStr s => strToNum s
  | .jsBool _ => .nan
  | .jsObj _ => .nan
  | .jsArr [] => .fin 0
  | .jsArr [x] => singletonNum x
  | .jsArr (_ :: _ :: _) => .nan

/-- JavaScript `ToNumber` on a value (objects convert through
`"[object Object]"`, hence NaN; arrays through their joined string). -/
def toNumber : JsVal → JsNum
  | .jsUndefined => .nan
  | .jsNull => .fin 0
  | .jsBool b => .fin (if b then 1 else 0)
  | .jsNum n => n
  | .jsStr s => strToNum s
  | .jsObj _ => .nan
  | .jsArr [] => .fin 0
  | .jsArr [x] => singletonNum x
  | .jsArr (_ :: _ :: _) => .nan

mutual

/-- One `JSON.stringify` / `JSON.parse` round trip: `undefined` disappears
(`none`), NaN and the infinities serialise as `null`, object fields with
`undefined` values are dropped, `undefined` array elements become `null`. -/
def jsonRound : JsVal → Option JsVal
  | .jsUndefined => none
  | .jsNull => some .jsNull
  | .jsBool b => some (.jsBool b)
  | .jsNum .nan => some .jsNull
  | .jsNum .inf => some .jsNull
  | .jsNum .ninf => some .jsNull
  | .jsNum (.fin q) => some (.jsNum (.fin q))
  | .jsStr s => some (.jsStr s)
  | .jsObj fs => some (.jsObj (jsonRoundFields fs))
  | .jsArr xs => some (.jsArr (jsonRoundArr xs))

/-- Round trip of an object's field list. -/
def jsonRoundFields : List (String × JsVal) → List (String × JsVal)
  | [] => []
  | (k, v) :: rest =>
    match jsonRound v with
    | none => jsonRoundFields rest
    | some w => (k, w) :: jsonRoundFields rest

/-- Round trip of an array's elements. -/
def jsonRoundArr : List JsVal → List JsVal
  | [] => []
  | v :: rest => (jsonRound v).getD .jsNull :: jsonRoundArr rest

end

/-- The `localStorage` cell under the fixed key `usdRubRateCache`.  A string
content is represented by what `JSON.parse` makes of it: `emptyStr` is the
empty string (falsy), `badJson` any non-empty string the parser rejects, and
`stored v` a string parsing to the value `v`. -/
inductive Cell where
  | absent
  | emptyStr
  | badJson
  | stored (v : JsVal)
  deriving Repr

/-- JavaScript exceptions relevant here. -/
inductive JsErr where
  /-- `TypeError`, e.g. property access or destructuring on `null`. -/
  | typeError
  /-- `SyntaxError` from `JSON.parse` or `response.json()`. -/
  | parseError
  /-- The `TypeError: Failed to fetch` of a rejected `fetch`. -/
  | fetchError
  /-- An explicitly constructed `Error(message)`. -/
  | jsError (msg : String)
  deriving DecidableEq, Repr

/-- The `message` property read by the error renderer (host-dependent text
for the built-in exception classes). -/
def JsErr.message : JsErr → String
  | .typeError => "TypeError"
  | .parseError => "SyntaxError"
  | .fetchError => "Failed to fetch"
  | .jsError m => m

/-- Field lookup on a parsed object (post-`JSON.parse` objects have no
duplicate keys); missing fields and non-object bases give `undefined`. -/
def lookupField (fs : List (String × JsVal)) (k : String) : JsVal :=
  match fs.find? (fun p => p.1 = k) with
  | some p => p.2
  | none => .jsUndefined

/-- Non-throwing property read as performed by destructuring against a value
already known not to be `null`/`undefined`. -/
def objGet : JsVal → String → JsVal
  | .jsObj fs, k => lookupField fs k
  | _, _ => .jsUndefined

/-- Property access `v.k`: throws `TypeError` on `null`/`undefined`,
otherwise reads the field (`undefined` on primitives and missing keys). -/
def getMember : JsVal → String → Except JsErr JsVal
  | .jsUndefined, _ => .error .typeError
  | .jsNull, _ => .error .typeError
  | .jsObj fs, k => .ok (lookupField fs k)
  | _, _ => .ok .jsUndefined

/-- Outcome of one `fetch` call together with its body: the promise may
reject, or deliver a response with a status whose `.json()` either rejects
(`badBody`) or yields a value. -/
inductive BodyResult where
  | badBody
  | json (v : JsVal)
  deriving Repr

/-- Outcome of a `fetch`. -/
inductive FetchResult where
  | netError
  | resp (status : ℕ) (body : BodyResult)
  deriving Repr

/-- `CACHE_DURATION = 60 * 60 * 1000` (one hour in milliseconds). -/
def CACHE_DURATION : ℚ := 60 * 60 * 1000

/-- Environment of one `getUsdRubRate` call: the storage cell, the clock
reading `new Date().getTime()`, and the fate of `fetch(USD_RUB_URL)`. -/
structure RateEnv where
  cell : Cell
  now : ℚ
  fetch : FetchResult

/-- The `try` block of `getUsdRubRate`'s refresh step: fetch the rate
endpoint, parse the body, and read `data.Valute.USD.Value` (the HTTP status
is never consulted in the source). -/
def rateTryBlock (f : FetchResult) : Except JsErr JsVal :=
  match f with
  | .netError => .error .fetchError
  | .resp _ .badBody => .error .parseError
  | .resp _ (.json d) => do
    let valute ← getMember d "Valute"
    let usd ← getMember valute "USD"
    let value ← getMember usd "Value"
    pure value

/-- `getUsdRubRate`: return the cached rate when the cache entry is fresh
(`now - timestamp < CACHE_DURATION`), otherwise refresh from the network and
overwrite the cache; on a failed refresh fall back to the stale cached rate,
or to the default 90 when no cache entry exists.  Returns the rate value
together with the final storage cell; `Except.error` is an uncaught
exception (a rejected promise). -/
def getUsdRubRate (env : RateEnv) : Except JsErr (JsVal × Cell) :=
  let fetchPart : Except JsErr (JsVal × Cell) :=
    match rateTryBlock env.fetch with
    | .ok usdRate =>
      let newCache : JsVal := .jsObj [("rate", usdRate), ("timestamp", .jsNum (.fin env.now))]
      .ok (usdRate, .stored ((jsonRound newCache).getD .jsNull))
    | .error _ =>
      match env.cell with
      | .stored v =>
        match getMember v "rate" with
        | .ok r => .ok (r, env.cell)
        | .error e => .error e
      | .badJson => .error .parseError
      | _ => .ok (.jsNum (.fin 90), env.cell)
  match env.cell with
  | .badJson => .error .parseError
  | .stored v =>
    match v with
    | .jsNull => .error .typeError
    | _ =>
      if JsNum.ltB (JsNum.sub (.fin env.now) (toNumber (objGet v "timestamp"))) (.fin CACHE_DURATION)
      then .ok (objGet v "rate", env.cell)
      else fetchPart
  | _ => fetchPart

/-- The pair returned by `getBitcoinData`: `priceUsd` and `volumeBtc` carry
whatever the chosen endpoint's fields held (possibly `undefined`). -/
structure PricePoint where
  priceUsd : JsVal
  volumeBtc : JsVal
  deriving Repr

/-- Environment of one `getBitcoinData` call: outcomes of the primary
(`BITCOIN_USD_URL`) and secondary (`FALLBACK_BITCOIN_USD_URL`) fetches. -/
structure BtcEnv where
  primary : FetchResult
  secondary : FetchResult

/-- The primary `try` block of `getBitcoinData`: an explicit throw on
HTTP 502 before the body is parsed, otherwise parse and map shape A
(`data.last`, `data.total_fees`).  No other status is checked. -/
def tryPrimary (f : FetchResult) : Except JsErr PricePoint :=
  match f with
  | .netError => .error .fetchError
  | .resp status body =>
    if status = 502 then .error (.jsError "Получена ошибка 502 (Bad Gateway)")
    else
      match body with
      | .badBody => .error .parseError
      | .json d => do
        let p ← getMember d "last"
        let v ← getMember d "total_fees"
        pure (PricePoint.mk p v)

/-- The raw secondary attempt: parse the fallback body and map shape B
(`data.market_price_usd`, `data.trade_volume_btc`); again no status check. -/
def trySecondaryRaw (f : FetchResult) : Except JsErr PricePoint :=
  match f with
  | .netError => .error .fetchError
  | .resp _ .badBody => .error .parseError
  | .resp _ (.json d) => do
    let p ← getMember d "market_price_usd"
    let v ← getMember d "trade_volume_btc"
    pure (PricePoint.mk p v)

/-- The secondary attempt as `getBitcoinData` runs it: any failure is caught
by the inner `catch` and replaced by the terminal error. -/
def secondaryAttempt (f : FetchResult) : Except JsErr PricePoint :=
  match trySecondaryRaw f with
  | .ok pp => .ok pp
  | .error _ => .error (.jsError "Не удалось получить данные о Bitcoin.")

/-- `getBitcoinData`: shape-A mapping from the primary endpoint, falling back
to the shape-B secondary attempt when the primary `try` block throws. -/
def getBitcoinData (env : BtcEnv) : Except JsErr PricePoint :=
  match tryPrimary env.primary with
  | .ok pp => .ok pp
  | .error _ => secondaryAttempt env.secondary

/-- Round half away from zero, the default `Intl.NumberFormat` rounding. -/
def roundHalfAway (q : ℚ) : ℤ :=
  if 0 ≤ q then ⌊q + 1 / 2⌋ else -⌊-q + 1 / 2⌋

/-- Insert the ru-RU group separator (modelled as U+00A0) every three digits
from the right of a digit string. -/
def groupChunks : List Char → List (List Char)
  | [] => []
  | a :: b :: c :: rest => [a, b, c] :: groupChunks rest
  | l => [l]

/-- ru-RU digit grouping of a natural number. -/
def groupDigits (n : ℕ) : String :=
  let rev := (Nat.repr n).data.reverse
  let chunks := (groupChunks rev).map (fun l => l.reverse)
  String.mk (List.intercalate [' '] chunks.reverse)

/-- Zero-padded fixed-width decimal rendering of `n < 10 ^ w`. -/
def padLeftZeros (w : ℕ) (n : ℕ) : String :=
  let s := Nat.repr n
  String.mk (List.replicate (w - s.length) '0') ++ s

/-- `toLocaleString('ru-RU')` with exactly two fraction digits on a finite
number: decimal comma, U+00A0 group separator. -/
def ruLocale2 (q : ℚ) : String :=
  let cents := roundHalfAway (q * 100)
  let sign := if cents < 0 then "-" else ""
  let n := cents.natAbs
  sign ++ groupDigits (n / 100) ++ "," ++ padLeftZeros 2 (n % 100)

/-- Drop trailing zeros (given reversed) while keeping at least four
characters. -/
def trimFracTo4 : List Char → List Char
  | [] => []
  | c :: rest => if c = '0' ∧ 4 ≤ rest.length then trimFracTo4 rest else c :: rest

/-- `toLocaleString('ru-RU')` with minimum 4 and maximum 8 fraction digits on
a finite number. -/
def ruLocale4to8 (q : ℚ) : String :=
  let units := roundHalfAway (q * 100000000)
  let sign := if units < 0 then "-" else ""
  let n := units.natAbs
  let frac8 := (padLeftZeros 8 (n % 100000000)).data
  let frac := (trimFracTo4 frac8.reverse).reverse
  sign ++ groupDigits (n / 100000000) ++ "," ++ String.mk frac

/-- `formatRub`: coerce anything that is not a non-NaN number to 0, then
format with two fraction digits (the infinities pass the source's guard and
format as the infinity sign). -/
def formatRub (value : JsVal) : String :=
  match value with
  | .jsNum (.fin q) => ruLocale2 q
  | .jsNum .inf => "∞"
  | .jsNum .ninf => "-∞"
  | _ => ruLocale2 0

/-- `formatBtc`: same guard, 4 to 8 fraction digits. -/
def formatBtc (value : JsVal) : String :=
  match value with
  | .jsNum (.fin q) => ruLocale4to8 q
  | .jsNum .inf => "∞"
  | .jsNum .ninf => "-∞"
  | _ => ruLocale4to8 0

/-- The per-cycle snapshot computed in `updateCryptoTable` (steps 2 and 3 of
the source): market price, total value, change and its CSS class. -/
structure Snapshot where
  marketPriceRub : JsNum
  totalRubValue : JsNum
  changeRubValue : JsNum
  changeClass : String
  deriving Repr

/-- Lines 151 to 166 of `app.js`: multiply price by rate and by volume, and
derive the change against the previous total (0 and class `zero` when no
previous total exists). -/
def computeSnapshot (priceUsd usdRubRate volumeBtc : JsNum)
    (previousTotalRubValue : Option JsNum) : Snapshot :=
  let marketPriceRub := JsNum.mul priceUsd usdRubRate
  let totalRubValue := JsNum.mul marketPriceRub volumeBtc
  match previousTotalRubValue with
  | none => ⟨marketPriceRub, totalRubValue, .fin 0, "zero"⟩
  | some prev =>
    let changeRubValue := JsNum.sub totalRubValue prev
    let changeClass :=
      if JsNum.ltB (.fin 0) changeRubValue then "positive"
      else if JsNum.ltB changeRubValue (.fin 0) then "negative"
      else "zero"
    ⟨marketPriceRub, totalRubValue, changeRubValue, changeClass⟩

/-- The mutable page state: the single-flight flag, the previous cycle's
total, the storage cell, and the two DOM text surfaces. -/
structure AppState where
  isFetching : Bool
  previousTotalRubValue : Option JsNum
  cache : Cell
  tbodyHTML : String
  lastUpdateText : String
  deriving Repr

/-- Environment of one `updateCryptoTable` cycle: the clock, the three fetch
outcomes, and the display time string `new Date().toLocaleTimeString()`. -/
structure CycleEnv where
  now : ℚ
  rateFetch : FetchResult
  btcPrimary : FetchResult
  btcSecondary : FetchResult
  timeStr : String

/-- The loading placeholder row. -/
def loadingRow : String :=
  "<tr><td colspan=\"4\" style=\"text-align: center;\">Обновление данных...</td></tr>"

/-- The error row rendered by the cycle's `catch`. -/
def errorRow (msg : String) : String :=
  "<tr><td colspan=\"4\" style=\"text-align: center; color: red;\">Ошибка: " ++ msg ++ "</td></tr>"

/-- The success row (template whitespace normalised away). -/
def successRow (snap : Snapshot) (volumeBtc : JsVal) : String :=
  let changeSign := if JsNum.ltB (.fin 0) snap.changeRubValue then "+" else ""
  "<tr><td>" ++ formatRub (.jsNum snap.marketPriceRub) ++ " ₽</td><td>" ++
    formatBtc volumeBtc ++ " BTC</td><td>" ++
    formatRub (.jsNum snap.totalRubValue) ++ " ₽</td><td class=\"" ++
    snap.changeClass ++ "\">" ++ changeSign ++ formatRub (.jsNum snap.changeRubValue) ++
    " ₽</td></tr>"

/-- `updateCryptoTable`: a no-op while a cycle is in flight; otherwise join
the two fetches, compute and render the snapshot and advance
`previousTotalRubValue`, or on either rejection render the error row and
leave `previousTotalRubValue` alone; the flag is cleared in `finally` either
way.  When both promises reject, `Promise.all` surfaces whichever settles
first in real time; the model reports the rate error (only the rendered
message text depends on this choice). -/
def updateCryptoTable (st : AppState) (env : CycleEnv) : AppState :=
  if st.isFetching then st
  else
    let rateRes := getUsdRubRate ⟨st.cache, env.now, env.rateFetch⟩
    let btcRes := getBitcoinData ⟨env.btcPrimary, env.btcSecondary⟩
    match rateRes, btcRes with
    | .ok (usdRubRate, cacheAfter), .ok btcData =>
      let snap := computeSnapshot (toNumber btcData.priceUsd) (toNumber usdRubRate)
        (toNumber btcData.volumeBtc) st.previousTotalRubValue
      { isFetching := false
        previousTotalRubValue := some snap.totalRubValue
        cache := cacheAfter
        tbodyHTML := successRow snap btcData.volumeBtc
        lastUpdateText := "Последнее обновление: " ++ env.timeStr ++
          " (Обновляется раз в минуту. Курс USD/RUB кэшируется на 1 час.)" }
    | .error e, _ =>
      { isFetching := false
        previousTotalRubValue := st.previousTotalRubValue
        cache := st.cache
        tbodyHTML := errorRow (JsErr.message e)
        lastUpdateText := "Ошибка обновления: " ++ env.timeStr }
    | .ok (_, cacheAfter), .error e =>
      { isFetching := false
        previousTotalRubValue := st.previousTotalRubValue
        cache := cacheAfter
        tbodyHTML := errorRow (JsErr.message e)
        lastUpdateText := "Ошибка обновления: " ++ env.timeStr }

/-- A storage cell holding a well-formed CachedRate record
`JSON.stringify` of a rate and a timestamp, both finite numbers. -/
def cachedRateCell (r t : ℚ) : Cell :=
  .stored (.jsObj [("rate", .jsNum (.fin r)), ("timestamp", .jsNum (.fin t))])

/-- The spec's `changeLocal` formula: 0 when `previousTotal` is absent,
`totalValueLocal - previousTotal` otherwise (stated from the spec for
comparison with `computeSnapshot`). -/
def specChangeLocal (p r v : ℚ) (prev : Option ℚ) : ℚ :=
  match prev with
  | none => 0
  | some q => p * r * v - q

theorem lookupField_rate (x y : JsVal) :
    lookupField [("rate", x), ("timestamp", y)] "rate" = x := rfl

theorem lookupField_timestamp (x y : JsVal) :
    lookupField [("rate", x), ("timestamp", y)] "timestamp" = y := rfl

/-- C1: the snapshot computation of `updateCryptoTable` realises the spec's
SnapshotComputer equations — `marketPriceLocal = priceUsd * rate`,
`totalValueLocal = marketPriceLocal * volumeUnits`, `changeLocal` is 0
without a previous total and the difference with it otherwise, and the
change sign compares `changeLocal` with 0 — and on
`priceUsd = 50000, rate = 90, volumeUnits = 1, previousTotal = 4000000`
yields `4500000, 4500000, 500000, positive`. -/
theorem computeSnapshot_meets_spec (p r v : ℚ) (prev : Option ℚ) :
    computeSnapshot (.fin p) (.fin r) (.fin v) (prev.map .fin) =
      { marketPriceRub := .fin (p * r)
        totalRubValue := .fin (p * r * v)
        changeRubValue := .fin (specChangeLocal p r v prev)
        changeClass :=
          if 0 < specChangeLocal p r v prev then "positive"
          else if specChangeLocal p r v prev < 0 then "negative" else "zero" } ∧
    computeSnapshot (.fin 50000) (.fin 90) (.fin 1) (some (.fin 4000000)) =
      { marketPriceRub := .fin 4500000
        totalRubValue := .fin 4500000
        changeRubValue := .fin 500000
        changeClass := "positive" } := by
  constructor
  · cases prev with
    | none =>
      simp [computeSnapshot, JsNum.mul, specChangeLocal, mul_assoc]
    | some q =>
      have hm : (some q).map JsNum.fin = some (JsNum.fin q) := rfl
      rw [hm]
      simp only [computeSnapshot, JsNum.mul, JsNum.sub, JsNum.ltB, specChangeLocal,
        decide_eq_true_eq, mul_assoc, sub_pos, sub_neg]
  · simp only [computeSnapshot, JsNum.mul, JsNum.sub, JsNum.ltB]
    norm_num

/-- C2: a fresh cached rate (`now - timestamp < 1` hour) is returned as is,
for every possible fate of the network (no fetch is consulted), and the
storage cell is left unchanged. -/
theorem getUsdRubRate_cache_hit (r t now : ℚ) (f : FetchResult)
    (h : now - t < 3600000) :
    getUsdRubRate ⟨cachedRateCell r t, now, f⟩ =
      .ok (.jsNum (.fin r), cachedRateCell r t) := by
  have hc : CACHE_DURATION = 3600000 := by norm_num [CACHE_DURATION]
  simp only [getUsdRubRate, cachedRateCell, objGet, lookupField_rate, lookupField_timestamp,
    toNumber, JsNum.sub, JsNum.ltB, hc, decide_eq_true_eq]
  rw [if_pos h]

/-- Witness for C2 at `rate = 95`, `timestamp = now - 1000ms`. -/
theorem getUsdRubRate_cache_hit_witness :
    getUsdRubRate ⟨cachedRateCell 95 1000, 2000, .netError⟩ =
      .ok (.jsNum (.fin 95), cachedRateCell 95 1000) :=
  getUsdRubRate_cache_hit 95 1000 2000 .netError (by norm_num)

/-- C7: while a cycle is in flight (`isFetching = true`) a new invocation of
`updateCryptoTable` returns the state unchanged — in particular
`previousTotalRubValue` is untouched — and, being independent of the cycle
environment, consults no fetch outcome and queues nothing. -/
theorem updateCryptoTable_single_flight (st : AppState) (env : CycleEnv)
    (h : st.isFetching = true) :
    updateCryptoTable st env = st := by
  simp [updateCryptoTable, h]

/-- Witness for C7 on a concrete in-flight state. -/
theorem updateCryptoTable_single_flight_witness :
    updateCryptoTable ⟨true, some (.fin 5), .absent, "t", "u"⟩
        ⟨0, .netError, .netError, .netError, "12:00:00"⟩ =
      ⟨true, some (.fin 5), .absent, "t", "u"⟩ :=
  updateCryptoTable_single_flight _ _ rfl

/-- C8: every value that is not a number, and the number NaN, format exactly
as 0 does; in particular `formatRub(NaN)` and `formatRub("x")` both give the
formatted zero string rather than an error or a string containing NaN. -/
theorem formatRub_nonnumeric_is_zero (v : JsVal)
    (h : (∀ x, v ≠ .jsNum x) ∨ v = .jsNum .nan) :
    formatRub v = formatRub (.jsNum (.fin 0)) ∧
    formatRub (.jsNum .nan) = formatRub (.jsNum (.fin 0)) ∧
    formatRub (.jsStr "x") = formatRub (.jsNum (.fin 0)) := by
  refine ⟨?_, rfl, rfl⟩
  cases v with
  | jsNum n =>
    rcases h with h | h
    · exact absurd rfl (h n)
    · rw [h]; exact rfl
  | jsUndefined => rfl
  | jsNull => rfl
  | jsBool b => rfl
  | jsStr s => rfl
  | jsObj fs => rfl
  | jsArr xs => rfl

/-- Witness for C8 at the input NaN. -/
theorem formatRub_nonnumeric_is_zero_witness :
    formatRub (.jsNum .nan) = formatRub (.jsNum (.fin 0)) ∧
    formatRub (.jsNum .nan) = formatRub (.jsNum (.fin 0)) ∧
    formatRub (.jsStr "x") = formatRub (.jsNum (.fin 0)) :=
  formatRub_nonnumeric_is_zero (.jsNum .nan) (Or.inr rfl)

/-- C3: when the refresh attempt fails (rejected fetch, bad body, or failed
field access — exactly the cases where `rateTryBlock` errors), an expired
CachedRate entry is still returned as the rate with the cell unchanged, and
with no cache entry the result is exactly 90; neither case throws. -/
theorem getUsdRubRate_stale_on_error (now : ℚ) (f : FetchResult) (e : JsErr)
    (hf : rateTryBlock f = .error e) :
    (∀ r t : ℚ, ¬ now - t < 3600000 →
      getUsdRubRate ⟨cachedRateCell r t, now, f⟩ =
        .ok (.jsNum (.fin r), cachedRateCell r t)) ∧
    getUsdRubRate ⟨.absent, now, f⟩ = .ok (.jsNum (.fin 90), .absent) := by
  have hc : CACHE_DURATION = 3600000 := by norm_num [CACHE_DURATION]
  constructor
  · intro r t ht
    simp only [getUsdRubRate, cachedRateCell, objGet, lookupField_rate,
      lookupField_timestamp, toNumber, JsNum.sub, JsNum.ltB, hc, decide_eq_true_eq, hf]
    rw [if_neg ht]
    rfl
  · simp only [getUsdRubRate, hf]

/-- Witness for C3: a dead network, one expired entry and one empty cache. -/
theorem getUsdRubRate_stale_on_error_witness :
    getUsdRubRate ⟨cachedRateCell 80 0, 7200001, .netError⟩ =
      .ok (.jsNum (.fin 80), cachedRateCell 80 0) ∧
    getUsdRubRate ⟨.absent, 7200001, .netError⟩ = .ok (.jsNum (.fin 90), .absent) :=
  ⟨(getUsdRubRate_stale_on_error 7200001 .netError .fetchError rfl).1 80 0 (by norm_num),
   (getUsdRubRate_stale_on_error 7200001 .netError .fetchError rfl).2⟩

/-- Counterexample to C4: a storage value that `JSON.parse` rejects makes
`getUsdRubRate` throw (the parse at line 23 sits outside the `try`), so it
does not return a number for every possible storage content. -/
theorem getUsdRubRate_malformed_cache_throws :
    getUsdRubRate ⟨.badJson, 0, .netError⟩ = .error .parseError := rfl

/-- C4 (amended): for every storage content that is absent, the empty
string, or a well-formed JSON record with number-valued `rate` and
`timestamp` fields, and every fetch outcome whose successful parse yields a
number at `Valute.USD.Value`, `getUsdRubRate` returns a number rather than
raising an error. -/
theorem getUsdRubRate_total_on_wellformed (env : RateEnv)
    (hcell : env.cell = .absent ∨ env.cell = .emptyStr ∨
      ∃ r t : JsNum, env.cell = .stored (.jsObj [("rate", .jsNum r), ("timestamp", .jsNum t)]))
    (hfetch : ∀ v, rateTryBlock env.fetch = .ok v → ∃ x : JsNum, v = .jsNum x) :
    ∃ (x : JsNum) (c : Cell), getUsdRubRate env = .ok (.jsNum x, c) := by
  obtain ⟨cell, now, f⟩ := env
  simp only at hcell hfetch
  rcases hcell with h | h | ⟨r, t, h⟩ <;> subst h
  · rcases hres : rateTryBlock f with e | v
    · exact ⟨.fin 90, .absent, by simp only [getUsdRubRate, hres]⟩
    · obtain ⟨x, rfl⟩ := hfetch v hres
      refine ⟨x, .stored ((jsonRound (.jsObj [("rate", .jsNum x),
        ("timestamp", .jsNum (.fin now))])).getD .jsNull), ?_⟩
      simp only [getUsdRubRate, hres]
  · rcases hres : rateTryBlock f with e | v
    · exact ⟨.fin 90, .emptyStr, by simp only [getUsdRubRate, hres]⟩
    · obtain ⟨x, rfl⟩ := hfetch v hres
      refine ⟨x, .stored ((jsonRound (.jsObj [("rate", .jsNum x),
        ("timestamp", .jsNum (.fin now))])).getD .jsNull), ?_⟩
      simp only [getUsdRubRate, hres]
  · simp only [getUsdRubRate]
    by_cases hfresh : JsNum.ltB (JsNum.sub (.fin now)
        (toNumber (objGet (.jsObj [("rate", .jsNum r), ("timestamp", .jsNum t)]) "timestamp")))
        (.fin CACHE_DURATION) = true
    · rw [if_pos hfresh]
      exact ⟨r, _, rfl⟩
    · rw [if_neg hfresh]
      rcases hres : rateTryBlock f with e | v
      · exact ⟨r, _, rfl⟩
      · obtain ⟨x, rfl⟩ := hfetch v hres
        exact ⟨x, _, rfl⟩

/-- Witness for C4 (amended): empty cache, dead network. -/
theorem getUsdRubRate_total_on_wellformed_witness :
    ∃ (x : JsNum) (c : Cell),
      getUsdRubRate ⟨.absent, 0, .netError⟩ = .ok (.jsNum x, c) :=
  getUsdRubRate_total_on_wellformed ⟨.absent, 0, .netError⟩ (Or.inl rfl)
    (fun v h => by simp [rateTryBlock] at h)

/-- Counterexample to C5: HTTP 404 — a non-2xx status — with a body that
parses is not treated as a failure: the result comes from the primary
shape-A mapping and the secondary endpoint (whose attempt here would end in
the terminal error) is never consulted. -/
theorem getBitcoinData_404_no_fallback :
    getBitcoinData ⟨.resp 404 (.json (.jsObj [("last", .jsNum (.fin 1)),
        ("total_fees", .jsNum (.fin 2))])), .netError⟩ =
      .ok ⟨.jsNum (.fin 1), .jsNum (.fin 2)⟩ ∧
    secondaryAttempt .netError = .error (.jsError "Не удалось получить данные о Bitcoin.") :=
  ⟨rfl, rfl⟩

/-- C5 (amended): whenever the primary attempt fails — a rejected fetch, the
explicit HTTP 502 signal, an unparseable body, or a parsed body on which the
field access throws, i.e. exactly when `tryPrimary` errors — `getBitcoinData`
is the secondary attempt with the shape-B field mapping before giving up;
a non-2xx status other than 502 with a parseable body is not such a
failure. -/
theorem getBitcoinData_fallback_on_primary_failure (p s : FetchResult) (e : JsErr)
    (hp : tryPrimary p = .error e) :
    getBitcoinData ⟨p, s⟩ = secondaryAttempt s := by
  simp only [getBitcoinData, hp]

/-- Witness for C5 (amended) at a rejected primary fetch. -/
theorem getBitcoinData_fallback_witness :
    getBitcoinData ⟨.netError, .netError⟩ = secondaryAttempt .netError :=
  getBitcoinData_fallback_on_primary_failure .netError .netError .fetchError rfl

/-- C6: a 502 primary response makes `getBitcoinData` throw before the
primary body is parsed (the result is the secondary attempt whatever that
body was); a successful secondary body
`market_price_usd = 50000, trade_volume_btc = 2` maps to the PricePoint
`(50000, 2)`; and when the secondary also fails, the terminal error
"could not retrieve price data" (`Не удалось получить данные о Bitcoin.`)
escapes to the caller. -/
theorem getBitcoinData_502_behavior (body : BodyResult) (s : FetchResult) :
    getBitcoinData ⟨.resp 502 body, s⟩ = secondaryAttempt s ∧
    getBitcoinData ⟨.resp 502 body, .resp 200 (.json (.jsObj
        [("market_price_usd", .jsNum (.fin 50000)), ("trade_volume_btc", .jsNum (.fin 2))]))⟩ =
      .ok ⟨.jsNum (.fin 50000), .jsNum (.fin 2)⟩ ∧
    (∀ e, trySecondaryRaw s = .error e →
      getBitcoinData ⟨.resp 502 body, s⟩ =
        .error (.jsError "Не удалось получить данные о Bitcoin.")) := by
  refine ⟨rfl, rfl, fun e he => ?_⟩
  simp only [getBitcoinData, tryPrimary, secondaryAttempt, he]
  rfl

/-- Witness for C6: unparseable 502 body, rejected secondary fetch. -/
theorem getBitcoinData_502_behavior_witness :
    getBitcoinData ⟨.resp 502 .badBody, .netError⟩ = secondaryAttempt .netError ∧
    getBitcoinData ⟨.resp 502 .badBody, .resp 200 (.json (.jsObj
        [("market_price_usd", .jsNum (.fin 50000)), ("trade_volume_btc", .jsNum (.fin 2))]))⟩ =
      .ok ⟨.jsNum (.fin 50000), .jsNum (.fin 2)⟩ ∧
    getBitcoinData ⟨.resp 502 .badBody, .netError⟩ =
      .error (.jsError "Не удалось получить данные о Bitcoin.") :=
  ⟨(getBitcoinData_502_behavior .badBody .netError).1,
   (getBitcoinData_502_behavior .badBody .netError).2.1,
   (getBitcoinData_502_behavior .badBody .netError).2.2 .fetchError rfl⟩

/-- The data-model invariant claimed for the stored CachedRate (stated from
the spec for comparison with what `getUsdRubRate` writes): if an entry is
present it is a record with a positive finite `rate` and a `timestamp` no
later than now. -/
def cacheInvariant (c : Cell) (now : ℚ) : Prop :=
  c = .absent ∨ ∃ r t : ℚ,
    c = .stored (.jsObj [("rate", .jsNum (.fin r)), ("timestamp", .jsNum (.fin t))]) ∧
    0 < r ∧ t ≤ now

/-- The rate endpoint body `Valute.USD.Value = -5`: valid JSON that the
source stores without validation. -/
def negRateBody : JsVal :=
  .jsObj [("Valute", .jsObj [("USD", .jsObj [("Value", .jsNum (.fin (-5)))])])]

/-- Counterexample to C9: when the rate endpoint returns -5 (a perfectly
possible JSON number), `getUsdRubRate` writes a CachedRate whose rate is -5,
so the written entry violates the positivity invariant. -/
theorem getUsdRubRate_write_negative_rate :
    getUsdRubRate ⟨.absent, 0, .resp 200 (.json negRateBody)⟩ =
      .ok (.jsNum (.fin (-5)),
        .stored (.jsObj [("rate", .jsNum (.fin (-5))), ("timestamp", .jsNum (.fin 0))])) ∧
    ¬ cacheInvariant
        (.stored (.jsObj [("rate", .jsNum (.fin (-5))), ("timestamp", .jsNum (.fin 0))])) 0 := by
  refine ⟨rfl, ?_⟩
  rintro (h | ⟨r, t, heq, hr, ht⟩)
  · exact Cell.noConfusion h
  · simp only [Cell.stored.injEq, JsVal.jsObj.injEq, List.cons.injEq, Prod.mk.injEq,
      JsVal.jsNum.injEq, JsNum.fin.injEq, and_true, true_and] at heq
    obtain ⟨h1, h2⟩ := heq
    rw [← h1] at hr
    norm_num at hr

/-- C9 (amended): every cache write by `getUsdRubRate` stores the endpoint's
value as `rate` and the current clock reading as `timestamp`; whenever the
endpoint's value is a positive finite number the written entry satisfies the
data-model invariant (`rate` positive finite, `timestamp` ≤ now).  The
source performs no validation, so positivity holds only under that
hypothesis on the endpoint. -/
theorem getUsdRubRate_write_invariant (now q : ℚ) (f : FetchResult) (cell : Cell)
    (hcell : cell = .absent ∨ cell = .emptyStr ∨
      ∃ r t : ℚ, cell = cachedRateCell r t ∧ ¬ now - t < 3600000)
    (hf : rateTryBlock f = .ok (.jsNum (.fin q)))
    (hq : 0 < q) :
    getUsdRubRate ⟨cell, now, f⟩ =
      .ok (.jsNum (.fin q),
        .stored (.jsObj [("rate", .jsNum (.fin q)), ("timestamp", .jsNum (.fin now))])) ∧
    cacheInvariant
      (.stored (.jsObj [("rate", .jsNum (.fin q)), ("timestamp", .jsNum (.fin now))])) now := by
  have hc : CACHE_DURATION = 3600000 := by norm_num [CACHE_DURATION]
  constructor
  · rcases hcell with h | h | ⟨r, t, h, ht⟩ <;> subst h
    · simp only [getUsdRubRate, hf]
      rfl
    · simp only [getUsdRubRate, hf]
      rfl
    · simp only [getUsdRubRate, cachedRateCell, objGet, lookupField_rate,
        lookupField_timestamp, toNumber, JsNum.sub, JsNum.ltB, hc, decide_eq_true_eq, hf]
      rw [if_neg ht]
      rfl
  · exact Or.inr ⟨q, now, rfl, hq, le_refl now⟩

/-- Witness for C9 (amended): empty cache, endpoint value 95 at time 1000. -/
theorem getUsdRubRate_write_invariant_witness :
    getUsdRubRate ⟨.absent, 1000,
        .resp 200 (.json (.jsObj [("Valute", .jsObj [("USD",
          .jsObj [("Value", .jsNum (.fin 95))])])]))⟩ =
      .ok (.jsNum (.fin 95),
        .stored (.jsObj [("rate", .jsNum (.fin 95)), ("timestamp", .jsNum (.fin 1000))])) ∧
    cacheInvariant
      (.stored (.jsObj [("rate", .jsNum (.fin 95)), ("timestamp", .jsNum (.fin 1000))])) 1000 :=
  getUsdRubRate_write_invariant 1000 95 _ .absent (Or.inl rfl) rfl (by norm_num)

/-- C10: when either joined fetch rejects, the cycle's `catch` path leaves
`previousTotalRubValue` exactly as it was and the `finally` clears the
in-flight flag, so the next successful cycle computes its change against the
last successful total. -/
theorem updateCryptoTable_failure_keeps_previousTotal (st : AppState) (env : CycleEnv)
    (h0 : st.isFetching = false)
    (hfail : (∃ e, getUsdRubRate ⟨st.cache, env.now, env.rateFetch⟩ = .error e) ∨
      (∃ e, getBitcoinData ⟨env.btcPrimary, env.btcSecondary⟩ = .error e)) :
    (updateCryptoTable st env).previousTotalRubValue = st.previousTotalRubValue ∧
    (updateCryptoTable st env).isFetching = false := by
  simp only [updateCryptoTable, h0, Bool.false_eq_true, if_false]
  rcases hr : getUsdRubRate ⟨st.cache, env.now, env.rateFetch⟩ with e | ⟨v, c⟩
  · exact ⟨rfl, rfl⟩
  · rcases hb : getBitcoinData ⟨env.btcPrimary, env.btcSecondary⟩ with e | pp
    · exact ⟨rfl, rfl⟩
    · rcases hfail with ⟨e, he⟩ | ⟨e, he⟩
      · rw [he] at hr
        exact Except.noConfusion hr
      · rw [he] at hb
        exact Except.noConfusion hb

/-- Witness for C10: both Bitcoin endpoints dead, so `getBitcoinData`
rejects with the terminal error. -/
theorem updateCryptoTable_failure_keeps_previousTotal_witness :
    (updateCryptoTable ⟨false, some (.fin 5), .absent, "t", "u"⟩
        ⟨0, .netError, .netError, .netError, "12:00:00"⟩).previousTotalRubValue =
      (⟨false, some (.fin 5), .absent, "t", "u"⟩ : AppState).previousTotalRubValue ∧
    (updateCryptoTable ⟨false, some (.fin 5), .absent, "t", "u"⟩
        ⟨0, .netError, .netError, .netError, "12:00:00"⟩).isFetching = false :=
  updateCryptoTable_failure_keeps_previousTotal _ _ rfl
    (Or.inr ⟨.jsError "Не удалось получить данные о Bitcoin.", rfl⟩)

end Task8
